import Mathlib

/-!
Verification of the asynchronous job orchestration subsystem of the
qwen3_tts_docker service (`app/services/job_manager.py`,
`app/api/jobs_routes.py`, `app/services/job_processors.py`).

The Python code is shallowly embedded as pure Lean functions over an
explicit manager state.  Mutable `Job` objects are modelled by a heap
`Nat → Job` keyed by the job's unique id (ids are fresh UUIDs, so the id
is a faithful object identity); the `_jobs` dict is the `registry` key
list together with the heap; the asyncio FIFO queue is a list of job
ids; the single worker of the default configuration
(`max_concurrent = 1`) is the optional `inflight` slot.  Wall-clock
times (`time.time()`) are passed in explicitly as natural numbers.
The opaque work-functions are modelled by outcome parameters at the
point where their result is consumed.
-/

namespace JobSys

/-- Embeds class `JobStatus` of `job_manager.py`. -/
inductive JobStatus where
  | pending
  | processing
  | completed
  | failed
  | cancelled
  | killed
deriving DecidableEq, Repr

/-- The terminal states: completed, failed, cancelled, killed. -/
def JobStatus.isTerminal : JobStatus → Bool
  | .completed => true
  | .failed => true
  | .cancelled => true
  | .killed => true
  | _ => false

/-- Embeds `JobStatus.value` (the string payload of the Python enum). -/
def statusValue : JobStatus → String
  | .pending => "pending"
  | .processing => "processing"
  | .completed => "completed"
  | .failed => "failed"
  | .cancelled => "cancelled"
  | .killed => "killed"

/-- Embeds dataclass `JobProgress`. -/
structure JobProgress where
  stage : String
  percent : Int
  message : String
  timestamp : Nat
deriving DecidableEq, Repr

/-- Embeds dataclass `Job`.  `cancelledFlag` is the `_cancelled` field and
`hasTask` records whether `_processing_task` is set.  `requestData` and
`result` are opaque to the core and modelled as strings. -/
structure Job where
  id : Nat
  jobType : String
  status : JobStatus
  createdAt : Nat
  updatedAt : Nat
  requestData : String
  progress : JobProgress
  result : Option String
  error : Option String
  cancelledFlag : Bool
  hasTask : Bool
deriving DecidableEq, Repr

/-- Embeds `Job.update_progress`: replaces the progress snapshot and
refreshes `updated_at`. -/
def Job.update_progress (j : Job) (stage : String) (percent : Int)
    (message : String) (now : Nat) : Job :=
  { j with
    progress := { stage := stage, percent := percent, message := message,
                  timestamp := now }
    updatedAt := now }

/-- Embeds `Job.is_cancelled`: the `_cancelled` flag or an already
cancelled/killed status. -/
def Job.is_cancelled (j : Job) : Bool :=
  j.cancelledFlag || j.status = .cancelled || j.status = .killed

/-- Embeds `Job.request_cancellation`: set the sticky `_cancelled` flag. -/
def Job.request_cancellation (j : Job) : Job :=
  { j with cancelledFlag := true }

/-- The job built by `JobManager.create_job` before insertion. -/
def newJob (jid : Nat) (jobType : String) (requestData : String)
    (now : Nat) : Job :=
  { id := jid
    jobType := jobType
    status := .pending
    createdAt := now
    updatedAt := now
    requestData := requestData
    progress := { stage := "created", percent := 0, message := "Job creado",
                  timestamp := now }
    result := none
    error := none
    cancelledFlag := false
    hasTask := false }

/-- Pointwise update of the job heap at one id (Python mutates the shared
`Job` object in place; ids are unique, so the id identifies the object). -/
def setHeap (h : Nat → Job) (jid : Nat) (j : Job) : Nat → Job :=
  fun x => if x = jid then j else h x

/-- State of the `JobManager` singleton together with the dispatch queue
and the single worker slot (`max_concurrent = 1`). -/
structure Mgr where
  heap : Nat → Job
  registry : List Nat
  queue : List Nat
  inflight : Option Nat
  maxJobs : Nat

/-- Embeds `JobManager.get_job` / `self._jobs.get(job_id)`. -/
def Mgr.get_job (m : Mgr) (jid : Nat) : Option Job :=
  if m.registry.contains jid then some (m.heap jid) else none

/-- Embeds `JobManager.list_jobs`. -/
def Mgr.list_jobs (m : Mgr) (statusFilter : Option JobStatus) : List Job :=
  let jobs := m.registry.map m.heap
  match statusFilter with
  | some s => jobs.filter (fun j => j.status = s)
  | none => jobs

/-- Age threshold of `JobManager._cleanup_old_jobs` (`max_age = 3600`). -/
def maxAge : Nat := 3600

/-- A job is evicted by `_cleanup_old_jobs` iff its status is terminal and
its `updated_at` is more than `max_age` seconds in the past. -/
def evictable (now : Nat) (j : Job) : Bool :=
  j.status.isTerminal && decide (now - j.updatedAt > maxAge)

/-- Embeds `JobManager._cleanup_old_jobs`: delete every registered job
that is terminal and older than `max_age`. -/
def Mgr.cleanup_old_jobs (m : Mgr) (now : Nat) : Mgr :=
  { m with registry := m.registry.filter (fun jid => !evictable now (m.heap jid)) }

/-- Python dict insertion: a fresh key is appended, an existing key keeps
its position. -/
def insertKey (registry : List Nat) (jid : Nat) : List Nat :=
  if registry.contains jid then registry else registry ++ [jid]

/-- Embeds `JobManager.create_job`: build a pending job, run eviction
first when the registry is at capacity, then insert. -/
def Mgr.create_job (m : Mgr) (jid : Nat) (jobType : String)
    (requestData : String) (now : Nat) : Mgr × Job :=
  let job := newJob jid jobType requestData now
  let m1 := if m.registry.length ≥ m.maxJobs then m.cleanup_old_jobs now else m
  ({ m1 with
      heap := setHeap m1.heap jid job
      registry := insertKey m1.registry jid },
   job)

/-- Embeds `JobManager.cancel_job` (soft cancel). -/
def Mgr.cancel_job (m : Mgr) (jid : Nat) (now : Nat) : Mgr × Bool :=
  match m.get_job jid with
  | none => (m, false)
  | some j =>
    if j.status = .pending then
      let j1 := { j.request_cancellation with
                  status := JobStatus.cancelled
                  updatedAt := now }
      ({ m with heap := setHeap m.heap jid j1 }, true)
    else if j.status = .processing then
      ({ m with heap := setHeap m.heap jid j.request_cancellation }, true)
    else
      (m, false)

/-- Outcome of the bounded wait inside `kill_job` for the processing
task to unwind (`await asyncio.wait_for(asyncio.shield(...))`).  The wait
result never influences the state mutation that follows it. -/
inductive WaitOutcome where
  | finished
  | cancelledErr
  | timedOut
  | raisedErr
  | noTask
deriving DecidableEq, Repr

/-- The result dictionary returned by `JobManager.kill_job`. -/
structure KillResult where
  success : Bool
  error : Option String := none
  jobStatus : Option JobStatus := none
  message : Option String := none
  previousStatus : Option JobStatus := none
  currentStatus : Option JobStatus := none
deriving DecidableEq, Repr

/-- Embeds `JobManager.kill_job` (hard kill).  Note the already-final
check covers only completed/failed/killed, so a cancelled job is
upgraded to killed. -/
def Mgr.kill_job (m : Mgr) (jid : Nat) (wait : WaitOutcome) (now : Nat) :
    Mgr × KillResult :=
  match m.get_job jid with
  | none =>
      (m, { success := false,
            error := some ("Job no encontrado: " ++ toString jid) })
  | some j =>
    if j.status = .completed ∨ j.status = .failed ∨ j.status = .killed then
      (m, { success := false,
            error := some ("El job ya está en estado final: " ++ statusValue j.status),
            jobStatus := some j.status })
    else
      let j1 := j.request_cancellation
      let prev := j1.status
      if j1.status = .pending then
        let j2 := { j1 with
                    status := JobStatus.killed
                    updatedAt := now
                    error := some "Job matado por el usuario (estaba en cola)" }
        ({ m with heap := setHeap m.heap jid j2 },
         { success := true,
           message := some ("Job " ++ toString jid ++ " matado exitosamente (estaba pendiente)"),
           previousStatus := some prev, currentStatus := some .killed })
      else if j1.status = .processing then
        let j2 := { j1 with
                    status := JobStatus.killed
                    updatedAt := now
                    error := some "Job matado por el usuario" }
        ({ m with heap := setHeap m.heap jid j2 },
         { success := true,
           message := some ("Job " ++ toString jid ++ " matado exitosamente (estaba en ejecución)"),
           previousStatus := some prev, currentStatus := some .killed })
      else if j1.status = .cancelled then
        let j2 := { j1 with
                    status := JobStatus.killed
                    updatedAt := now }
        ({ m with heap := setHeap m.heap jid j2 },
         { success := true,
           message := some ("Job " ++ toString jid ++ " matado exitosamente"),
           previousStatus := some prev, currentStatus := some .killed })
      else
        (m, { success := false,
              error := some ("Estado no manejado: " ++ statusValue j1.status) })

/-- Embeds `JobManager.delete_job`: removes only the registry mapping;
the job object itself (held by any in-flight worker) is untouched. -/
def Mgr.delete_job (m : Mgr) (jid : Nat) : Mgr × Bool :=
  if m.registry.contains jid then
    ({ m with registry := m.registry.erase jid }, true)
  else
    (m, false)

/-- The keys of `JOB_PROCESSORS` in `job_processors.py`. -/
def knownJobTypes : List String :=
  ["custom_voice", "voice_design", "voice_clone_url", "voice_clone_file",
   "cloned_voice_generate"]

/-- Embeds `get_processor`: succeeds exactly when the job type is a key of
`JOB_PROCESSORS`; otherwise it raises `ValueError`. -/
def get_processor_ok (jobType : String) : Bool :=
  knownJobTypes.contains jobType

/-- Response of the `POST /jobs` route: success carries the job id, a
`ValueError` from `get_processor` becomes an HTTP 400. -/
inductive RouteResult where
  | ok (jid : Nat)
  | badRequest (msg : String)
deriving DecidableEq, Repr

/-- Embeds `create_job` of `jobs_routes.py`: the job is created and
inserted into the registry first, then the processor is looked up (a
failure surfaces as HTTP 400 with the job already registered), and only
on success is the (job, processor) pair enqueued. -/
def createJobRoute (m : Mgr) (jid : Nat) (jobType : String)
    (requestData : String) (now : Nat) : Mgr × RouteResult :=
  let r := m.create_job jid jobType requestData now
  if get_processor_ok jobType then
    ({ r.1 with queue := r.1.queue ++ [r.2.id] }, .ok r.2.id)
  else
    (r.1, .badRequest ("No existe procesador para el tipo de job: " ++ jobType))

/-- How the processing task of `_process_job_internal` resolves:
the work-function returns a result, raises an ordinary exception, raises
`JobCancellationError` from the cancellation-checking progress callback,
or the task is cancelled externally (`asyncio.CancelledError`). -/
inductive FinishOutcome where
  | completed (result : String)
  | raisedErr (msg : String)
  | cancelSignal (msg : String)
  | externalCancel
deriving DecidableEq, Repr

/-- Worker dequeue step (`_worker_loop` + the prefix of
`_process_job_internal` up to starting the work-function): pop the FIFO
head; a job already flagged as cancelled raises `JobCancellationError`
before the work-function starts and is recorded as cancelled; otherwise
the job turns `processing` and the worker slot is occupied. -/
def Mgr.dequeueStep (m : Mgr) (now : Nat) : Mgr :=
  match m.queue, m.inflight with
  | jid :: rest, none =>
      let j := m.heap jid
      if j.is_cancelled then
        let j1 := { j with
                    status := JobStatus.cancelled
                    error := some "Job cancelado antes de iniciar" }
        let j2 := j1.update_progress "cancelled" 0 "Job cancelado" now
        { m with queue := rest, heap := setHeap m.heap jid j2 }
      else
        let j1 := { j with status := JobStatus.processing, hasTask := true }
        let j2 := j1.update_progress "starting" 0 "Iniciando procesamiento..." now
        { m with queue := rest, inflight := some jid,
                 heap := setHeap m.heap jid j2 }
  | _, _ => m

/-- True when a dequeue at this state would actually invoke the
work-function (the `run_in_executor` call of `_process_job_internal`). -/
def Mgr.dequeueInvokes (m : Mgr) : Bool :=
  match m.queue, m.inflight with
  | jid :: _, none => !(m.heap jid).is_cancelled
  | _, _ => false

/-- Worker finish step (the `await job._processing_task` resolution in
`_process_job_internal`): records the terminal outcome on the in-flight
job and frees the worker slot. -/
def Mgr.finishStep (m : Mgr) (out : FinishOutcome) (now : Nat) : Mgr :=
  match m.inflight with
  | none => m
  | some jid =>
      let j := m.heap jid
      let j1 :=
        match out with
        | .completed r =>
            if j.is_cancelled then
              ({ j with
                 status := JobStatus.killed
                 error := some "Job cancelado durante el procesamiento"
                 }).update_progress "killed" 0 "Job cancelado" now
            else
              ({ j with
                 status := JobStatus.completed
                 result := some r }).update_progress "completed" 100
                   "Procesamiento completado" now
        | .externalCancel =>
            ({ j with
               status := JobStatus.killed
               error := some "Job matado por el usuario"
               }).update_progress "killed" 0 "Job matado" now
        | .cancelSignal msg =>
            ({ j with
               status := JobStatus.cancelled
               error := some msg }).update_progress "cancelled" 0
                 "Job cancelado" now
        | .raisedErr msg =>
            ({ j with
               status := JobStatus.failed
               error := some msg }).update_progress "error" 0
                 ("Error: " ++ msg) now
      { m with inflight := none,
               heap := setHeap m.heap jid { j1 with hasTask := false } }

/-- One step of the whole system: a submission through the route, a
cancel/kill/delete call, or a worker dequeue/finish. -/
inductive SysStep where
  | createRoute (jid : Nat) (jobType : String) (requestData : String)
  | cancel (jid : Nat)
  | kill (jid : Nat) (wait : WaitOutcome)
  | delete (jid : Nat)
  | dequeue
  | finish (out : FinishOutcome)
deriving DecidableEq, Repr

/-- Interpretation of one system step at wall-clock time `now`. -/
def Mgr.stepRun (m : Mgr) (s : SysStep) (now : Nat) : Mgr :=
  match s with
  | .createRoute jid t p => (createJobRoute m jid t p now).1
  | .cancel jid => (m.cancel_job jid now).1
  | .kill jid w => (m.kill_job jid w now).1
  | .delete jid => (m.delete_job jid).1
  | .dequeue => m.dequeueStep now
  | .finish out => m.finishStep out now

/-- Observable scheduling events of a run: a job enqueued by the route, a
job entering `processing` at dequeue, or a dequeue aborted because the
job was already flagged (its work-function is never invoked). -/
inductive TraceEv where
  | enq (jid : Nat)
  | started (jid : Nat)
  | aborted (jid : Nat)
deriving DecidableEq, Repr

/-- The scheduling events emitted by one step from state `m`. -/
def stepTrace (m : Mgr) (s : SysStep) : List TraceEv :=
  match s with
  | .createRoute jid t _ => if get_processor_ok t then [.enq jid] else []
  | .dequeue =>
      match m.queue, m.inflight with
      | jid :: _, none =>
          if (m.heap jid).is_cancelled then [.aborted jid] else [.started jid]
      | _, _ => []
  | _ => []

/-- Run a list of timed steps, collecting the scheduling trace. -/
def runTrace : Mgr → List (SysStep × Nat) → Mgr × List TraceEv
  | m, [] => (m, [])
  | m, (s, now) :: rest =>
      let r := runTrace (m.stepRun s now) rest
      (r.1, stepTrace m s ++ r.2)

/-- Submission order: the job ids enqueued on the dispatch queue, in
order. -/
def enqOrder (tr : List TraceEv) : List Nat :=
  tr.filterMap fun e => match e with | .enq j => some j | _ => none

/-- Dispatch order: the job ids popped from the queue by the worker, in
order (whether or not they start processing). -/
def deqOrder (tr : List TraceEv) : List Nat :=
  tr.filterMap fun e =>
    match e with | .started j => some j | .aborted j => some j | _ => none

/-- Processing order: the job ids that enter the `processing` state, in
order. -/
def procOrder (tr : List TraceEv) : List Nat :=
  tr.filterMap fun e => match e with | .started j => some j | _ => none

/-- Freshness of one step at a state (UUIDs never collide with a live
job): a `createRoute` id is not registered, not queued and not in-flight
at its creation time; other steps are unconstrained. -/
def stepFresh (m : Mgr) (s : SysStep) : Bool :=
  match s with
  | .createRoute jid _ _ =>
      !(m.registry.contains jid) && !(m.queue.contains jid) &&
        !(m.inflight = some jid : Bool)
  | _ => true

/-- Freshness of the created job ids along a whole run. -/
def freshRun : Mgr → List (SysStep × Nat) → Bool
  | _, [] => true
  | m, (s, now) :: rest => stepFresh m s && freshRun (m.stepRun s now) rest

/-- True when the step is neither a cancel nor a kill. -/
def stepNotCancelKill : SysStep → Bool
  | .cancel _ => false
  | .kill _ _ => false
  | _ => true

/-- True when a run contains no cancel and no kill step. -/
def noCancelKill (steps : List (SysStep × Nat)) : Bool :=
  steps.all fun sn => stepNotCancelKill sn.1

/-- One iteration of the `while` loop of `stream_progress`: the job's
fields as observed at the loop check, plus whether a progress update
arrived from the callback queue within the 1-second timeout (`none`
means a heartbeat is due).  `time` is the wall clock of the iteration. -/
structure LoopObs where
  status : JobStatus
  arrival : Option JobProgress
  result : Option String
  error : Option String
  time : Nat
deriving DecidableEq, Repr

/-- The SSE events produced by `stream_progress`. -/
inductive SseEvent where
  | progressEv (p : JobProgress)
  | heartbeat (t : Nat)
  | completedEv (result : Option String)
  | errorEv (err : Option String)
  | cancelledEv
  | killedEv (err : Option String)
deriving DecidableEq, Repr

/-- The closing events of a stream (also covers the not-found error). -/
def SseEvent.isTerminalEvent : SseEvent → Bool
  | .completedEv _ => true
  | .errorEv _ => true
  | .cancelledEv => true
  | .killedEv _ => true
  | _ => false

/-- The final event emitted by `stream_progress` for a terminal status. -/
def terminalEvent (status : JobStatus) (result err : Option String) :
    Option SseEvent :=
  match status with
  | .completed => some (.completedEv result)
  | .failed => some (.errorEv err)
  | .cancelled => some .cancelledEv
  | .killed => some (.killedEv err)
  | _ => none

/-- The event emitted by one non-terminal loop iteration: a progress
update if one arrived, otherwise a heartbeat. -/
def bodyEvent (o : LoopObs) : SseEvent :=
  match o.arrival with
  | some p => .progressEv p
  | none => .heartbeat o.time

/-- The `while job.status in [PENDING, PROCESSING]` loop of
`stream_progress` followed by the terminal dispatch: iterates while the
observed status is non-terminal, then emits the event matching the
terminal status and closes.  An empty observation list models a
truncated view of a stream still open. -/
def streamLoop : List LoopObs → List SseEvent
  | [] => []
  | o :: rest =>
      if o.status = .pending ∨ o.status = .processing then
        bodyEvent o :: streamLoop rest
      else
        match terminalEvent o.status o.result o.error with
        | some e => [e]
        | none => []

/-- Embeds `JobManager.stream_progress`: an unknown job id yields one
error event and closes; otherwise the job's current progress snapshot is
emitted immediately, then the loop runs. -/
def stream_progress (jobAtSubscribe : Option Job) (obs : List LoopObs) :
    List SseEvent :=
  match jobAtSubscribe with
  | none => [.errorEv (some "Job no encontrado")]
  | some j => .progressEv j.progress :: streamLoop obs

/-- A job record with the given id and status and otherwise default
fields, used to build concrete states for witnesses and
counterexamples. -/
def sampleJob (jid : Nat) (st : JobStatus) : Job :=
  { id := jid
    jobType := "custom_voice"
    status := st
    createdAt := 0
    updatedAt := 0
    requestData := "req"
    progress := { stage := "created", percent := 0, message := "Job creado",
                  timestamp := 0 }
    result := none
    error := none
    cancelledFlag := false
    hasTask := false }

/-- Concrete state for the C1 counterexample: job 2 is registered and
cancelled. -/
def mgrC1 : Mgr :=
  { heap := fun x => if x = 2 then
      { sampleJob 2 .cancelled with cancelledFlag := true } else sampleJob x .pending
    registry := [2]
    queue := []
    inflight := none
    maxJobs := 100 }

/-- Concrete state for the C1 witness: job 3 is registered and
completed. -/
def mgrC1w : Mgr :=
  { heap := fun x => if x = 3 then sampleJob 3 .completed else sampleJob x .pending
    registry := [3]
    queue := []
    inflight := none
    maxJobs := 100 }

/-- Concrete state for the C2 witness: a fresh manager. -/
def mgrC2 : Mgr :=
  { heap := fun x => sampleJob x .pending
    registry := []
    queue := []
    inflight := none
    maxJobs := 100 }

/-- Concrete run for the C2 witness: two submissions, then the single
worker drains them in order. -/
def stepsC2 : List (SysStep × Nat) :=
  [(.createRoute 10 "custom_voice" "a", 0),
   (.createRoute 11 "voice_design" "b", 1),
   (.dequeue, 2), (.finish (.completed "r"), 3),
   (.dequeue, 4), (.finish (.raisedErr "boom"), 5)]

/-- Concrete state for the C3 counterexample: job 1 is registered and
cancelled. -/
def mgrC3 : Mgr :=
  { heap := fun x => if x = 1 then
      { sampleJob 1 .cancelled with cancelledFlag := true } else sampleJob x .pending
    registry := [1]
    queue := []
    inflight := none
    maxJobs := 100 }

/-- Concrete state for the C3 witness: job 1 is registered and
completed. -/
def mgrC3w : Mgr :=
  { heap := fun x => if x = 1 then sampleJob 1 .completed else sampleJob x .pending
    registry := [1]
    queue := []
    inflight := none
    maxJobs := 100 }

/-- Concrete state for the C4 counterexample and witness: an empty
manager. -/
def mgrC4 : Mgr :=
  { heap := fun x => sampleJob x .pending
    registry := []
    queue := []
    inflight := none
    maxJobs := 100 }

/-- Concrete state for the C5 witness: job 1 is registered, processing
and in-flight. -/
def mgrC5 : Mgr :=
  { heap := fun x => if x = 1 then
      { sampleJob 1 .processing with hasTask := true } else sampleJob x .pending
    registry := [1]
    queue := []
    inflight := some 1
    maxJobs := 100 }

/-- Concrete state for the C6 witness: job 1 is registered, pending and
queued. -/
def mgrC6 : Mgr :=
  { heap := fun x => sampleJob x .pending
    registry := [1]
    queue := [1]
    inflight := none
    maxJobs := 100 }

/-- Concrete state for the C7 counterexample: capacity 1 is already
exceeded; job 1 is completed and an hour stale, job 2 is pending. -/
def mgrC7 : Mgr :=
  { heap := fun x => if x = 1 then sampleJob 1 .completed else sampleJob x .pending
    registry := [1, 2]
    queue := [2]
    inflight := none
    maxJobs := 1 }

/-- Concrete state for the C7 witness: capacity 2 is reached; job 1 is
completed and an hour stale, job 2 is pending. -/
def mgrC7w : Mgr :=
  { heap := fun x => if x = 1 then sampleJob 1 .completed else sampleJob x .pending
    registry := [1, 2]
    queue := [2]
    inflight := none
    maxJobs := 2 }

/-- Concrete state for the C9 witness: job 1 is in-flight and job 2 is
next on the queue. -/
def mgrC9 : Mgr :=
  { heap := fun x => if x = 1 then
      { sampleJob 1 .processing with hasTask := true } else sampleJob x .pending
    registry := [1, 2]
    queue := [2]
    inflight := some 1
    maxJobs := 100 }

/-- Concrete state for the C10 witness: job 1 is registered, processing
and in-flight. -/
def mgrC10 : Mgr :=
  { heap := fun x => if x = 1 then
      { sampleJob 1 .processing with hasTask := true } else sampleJob x .pending
    registry := [1]
    queue := []
    inflight := some 1
    maxJobs := 100 }

/-- Concrete loop observation for the C8 witness: the job is observed
already `completed` at the first loop check. -/
def obsC8 : LoopObs :=
  { status := .completed, arrival := none, result := some "ok",
    error := none, time := 5 }

theorem setHeap_self (h : Nat → Job) (jid : Nat) (j : Job) :
    setHeap h jid j jid = j := by
  simp [setHeap]

theorem setHeap_other (h : Nat → Job) (jid x : Nat) (j : Job)
    (hx : x ≠ jid) : setHeap h jid j x = h x := by
  simp [setHeap, hx]

theorem cleanup_heap (m : Mgr) (now : Nat) :
    (m.cleanup_old_jobs now).heap = m.heap := rfl

theorem cleanup_queue (m : Mgr) (now : Nat) :
    (m.cleanup_old_jobs now).queue = m.queue := rfl

theorem create_heap_other (m : Mgr) (jid : Nat) (t p : String) (now x : Nat)
    (hx : x ≠ jid) : ((m.create_job jid t p now).1).heap x = m.heap x := by
  by_cases hc : m.registry.length ≥ m.maxJobs <;>
    simp [Mgr.create_job, hc, Mgr.cleanup_old_jobs, setHeap_other _ _ _ _ hx]

theorem create_queue (m : Mgr) (jid : Nat) (t p : String) (now : Nat) :
    ((m.create_job jid t p now).1).queue = m.queue := by
  by_cases hc : m.registry.length ≥ m.maxJobs <;>
    simp [Mgr.create_job, hc, Mgr.cleanup_old_jobs]

theorem insertKey_mem (l : List Nat) (jid : Nat) :
    jid ∈ insertKey l jid := by
  by_cases hc : jid ∈ l <;> simp [insertKey, hc]

/-- Claim C5: for a `processing` job, `kill(id, timeout)` requests
cancellation and — whatever the bounded wait on the task does — leaves
the job `killed` with the error recorded and `updated_at` refreshed,
returning success with previous status `processing` and current status
`killed`. -/
theorem C5_kill_processing_forces_killed (m : Mgr) (jid : Nat)
    (w : WaitOutcome) (now : Nat)
    (hreg : jid ∈ m.registry)
    (hst : (m.heap jid).status = .processing) :
    ((m.kill_job jid w now).1.heap jid).status = .killed ∧
    ((m.kill_job jid w now).1.heap jid).error =
      some "Job matado por el usuario" ∧
    ((m.kill_job jid w now).1.heap jid).updatedAt = now ∧
    ((m.kill_job jid w now).1.heap jid).cancelledFlag = true ∧
    (m.kill_job jid w now).2.success = true ∧
    (m.kill_job jid w now).2.previousStatus = some .processing ∧
    (m.kill_job jid w now).2.currentStatus = some .killed := by
  simp [Mgr.kill_job, Mgr.get_job, hreg, hst, Job.request_cancellation,
    setHeap_self]

/-- Witness for C5 at a concrete processing job. -/
theorem C5_witness :
    ((1 : Nat) ∈ mgrC5.registry ∧ (mgrC5.heap 1).status = .processing) ∧
    ((mgrC5.kill_job 1 .timedOut 9).1.heap 1).status = .killed ∧
    (mgrC5.kill_job 1 .timedOut 9).2.success = true :=
  ⟨⟨by decide, by decide⟩,
   (C5_kill_processing_forces_killed mgrC5 1 .timedOut 9 (by decide)
      (by decide)).1,
   (C5_kill_processing_forces_killed mgrC5 1 .timedOut 9 (by decide)
      (by decide)).2.2.2.2.1⟩

/-- Claim C3 counterexample: on the concrete state `mgrC3`, job 1 is in
the terminal state `cancelled`, yet `kill_job` returns success (not a
failure/no-op result) and changes its status to `killed`, refuting the
claim that a further kill leaves every terminal job unchanged with a
failure result. -/
theorem C3_counterexample :
    (mgrC3.heap 1).status = .cancelled ∧
    (mgrC3.heap 1).status.isTerminal = true ∧
    (mgrC3.kill_job 1 .noTask 7).2.success = true ∧
    ((mgrC3.kill_job 1 .noTask 7).1.heap 1).status = .killed := by
  decide

/-- Claim C3 amended: a further cancel on any terminal job is a no-op
returning failure; a further kill on a `completed`, `failed` or `killed`
job is a no-op returning failure that reports the existing status; but a
further kill on a `cancelled` job succeeds and upgrades the status to
`killed` with `updated_at` refreshed. -/
theorem C3_terminal_cancel_kill (m : Mgr) (jid : Nat) (w : WaitOutcome)
    (now : Nat)
    (hreg : jid ∈ m.registry)
    (hterm : (m.heap jid).status.isTerminal = true) :
    ((m.cancel_job jid now).1 = m ∧ (m.cancel_job jid now).2 = false) ∧
    ((m.heap jid).status ≠ .cancelled →
      (m.kill_job jid w now).1 = m ∧
      (m.kill_job jid w now).2.success = false ∧
      (m.kill_job jid w now).2.jobStatus = some (m.heap jid).status ∧
      (m.kill_job jid w now).2.error =
        some ("El job ya está en estado final: " ++
          statusValue (m.heap jid).status)) ∧
    ((m.heap jid).status = .cancelled →
      (m.kill_job jid w now).2.success = true ∧
      (m.kill_job jid w now).2.previousStatus = some .cancelled ∧
      (m.kill_job jid w now).2.currentStatus = some .killed ∧
      ((m.kill_job jid w now).1.heap jid).status = .killed ∧
      ((m.kill_job jid w now).1.heap jid).updatedAt = now) := by
  cases hst : (m.heap jid).status <;>
    simp_all [Mgr.cancel_job, Mgr.kill_job, Mgr.get_job,
      Job.request_cancellation, JobStatus.isTerminal, setHeap_self]

/-- Witness for C3 at a concrete completed job. -/
theorem C3_witness :
    ((1 : Nat) ∈ mgrC3w.registry ∧ (mgrC3w.heap 1).status.isTerminal = true) ∧
    (mgrC3w.cancel_job 1 8).2 = false ∧
    (mgrC3w.kill_job 1 .noTask 8).2.success = false :=
  ⟨⟨by decide, by decide⟩,
   (C3_terminal_cancel_kill mgrC3w 1 .noTask 8 (by decide) (by decide)).1.2,
   ((C3_terminal_cancel_kill mgrC3w 1 .noTask 8 (by decide) (by decide)).2.1
      (by decide)).2.1⟩

/-- Claim C4 counterexample: submitting with the unknown job type
`"bogus"` to the empty manager `mgrC4` does report the error
synchronously (HTTP 400), but a job is created: the registry gains entry
1, observable via `get_job` as a `pending` job — refuting "no job is
created, and the registry is unchanged". -/
theorem C4_counterexample :
    (createJobRoute mgrC4 1 "bogus" "req" 3).2 =
      .badRequest "No existe procesador para el tipo de job: bogus" ∧
    mgrC4.registry = [] ∧
    mgrC4.get_job 1 = none ∧
    (createJobRoute mgrC4 1 "bogus" "req" 3).1.registry = [1] ∧
    ((createJobRoute mgrC4 1 "bogus" "req" 3).1.get_job 1).isSome = true ∧
    (((createJobRoute mgrC4 1 "bogus" "req" 3).1.heap 1).status = .pending) := by
  decide

/-- Claim C4 amended: a submission with an unknown job type reports the
error synchronously as an HTTP 400 and nothing is enqueued (the dispatch
queue is unchanged, so the work is never dispatched), but a `pending`
job is created and inserted into the registry, observable via `get`. -/
theorem C4_unknown_type_leaves_pending_job (m : Mgr) (jid : Nat)
    (t p : String) (now : Nat)
    (hunknown : get_processor_ok t = false) :
    (createJobRoute m jid t p now).2 =
      .badRequest ("No existe procesador para el tipo de job: " ++ t) ∧
    (createJobRoute m jid t p now).1.queue = m.queue ∧
    (createJobRoute m jid t p now).1.get_job jid =
      some (newJob jid t p now) ∧
    (newJob jid t p now).status = .pending := by
  refine ⟨?_, ?_, ?_, rfl⟩
  · simp [createJobRoute, hunknown]
  · simp [createJobRoute, hunknown, create_queue]
  · simp [createJobRoute, hunknown, Mgr.get_job, Mgr.create_job,
      insertKey_mem, setHeap_self]

/-- Witness for C4 at a concrete unknown job type. -/
theorem C4_witness :
    get_processor_ok "bogus2" = false ∧
    (createJobRoute mgrC4 5 "bogus2" "req" 3).1.queue = mgrC4.queue ∧
    (createJobRoute mgrC4 5 "bogus2" "req" 3).1.get_job 5 =
      some (newJob 5 "bogus2" "req" 3) :=
  ⟨by decide,
   (C4_unknown_type_leaves_pending_job mgrC4 5 "bogus2" "req" 3
      (by decide)).2.1,
   (C4_unknown_type_leaves_pending_job mgrC4 5 "bogus2" "req" 3
      (by decide)).2.2.1⟩

theorem mem_insertKey_of_mem (l : List Nat) (jid a : Nat) (ha : a ∈ l) :
    a ∈ insertKey l jid := by
  by_cases hc : jid ∈ l <;> simp [insertKey, hc, ha]

theorem insertKey_length_le (l : List Nat) (jid : Nat) :
    (insertKey l jid).length ≤ l.length + 1 := by
  by_cases hc : jid ∈ l <;> simp [insertKey, hc]

/-- Claim C7 counterexample: on `mgrC7` the registry holds 2 jobs with
`max_jobs = 1`, job 1 being evictable (completed, more than an hour
stale).  Creating job 3 runs eviction and removes job 1, yet the
post-insertion count is 2 > `max_jobs`, refuting "if at least one job is
evictable the stored-job count after insertion does not exceed
max_jobs". -/
theorem C7_counterexample :
    mgrC7.registry.length ≥ mgrC7.maxJobs ∧
    (1 : Nat) ∈ mgrC7.registry ∧
    evictable 4000 (mgrC7.heap 1) = true ∧
    (mgrC7.create_job 3 "custom_voice" "req" 4000).1.registry = [2, 3] ∧
    (mgrC7.create_job 3 "custom_voice" "req" 4000).1.registry.length >
      mgrC7.maxJobs := by
  decide

/-- Claim C7 amended: when a create finds the registry at or above
capacity, eviction runs before insertion and deletes exactly the
registered jobs that are terminal and more than `max_age` old; eviction
never removes a non-terminal job; and when the pre-insertion count is
exactly `max_jobs` and at least one job is evictable, the post-insertion
count does not exceed `max_jobs`. -/
theorem C7_eviction_before_insertion (m : Mgr) (jid : Nat) (t p : String)
    (now : Nat)
    (hcap : m.registry.length ≥ m.maxJobs) :
    ((m.create_job jid t p now).1.registry =
      insertKey (m.registry.filter fun q => !evictable now (m.heap q)) jid) ∧
    (∀ q ∈ m.registry, (m.heap q).status.isTerminal = false →
      q ∈ (m.create_job jid t p now).1.registry) ∧
    (m.registry.length = m.maxJobs →
      (∃ q ∈ m.registry, evictable now (m.heap q) = true) →
      (m.create_job jid t p now).1.registry.length ≤ m.maxJobs) := by
  have hreg : (m.create_job jid t p now).1.registry =
      insertKey (m.registry.filter fun q => !evictable now (m.heap q)) jid := by
    simp [Mgr.create_job, hcap, Mgr.cleanup_old_jobs]
  refine ⟨hreg, ?_, ?_⟩
  · intro q hq hnt
    rw [hreg]
    exact mem_insertKey_of_mem _ _ _
      (List.mem_filter.2 ⟨hq, by simp [evictable, hnt]⟩)
  · intro hlen ⟨q, hq, hev⟩
    rw [hreg]
    have hsplit := m.registry.length_eq_length_filter_add
      (fun q => evictable now (m.heap q))
    have hpos : 0 <
        (m.registry.filter fun q => evictable now (m.heap q)).length :=
      List.length_pos.2 (List.ne_nil_of_mem (List.mem_filter.2 ⟨hq, hev⟩))
    have hlt :
        (m.registry.filter fun q => !evictable now (m.heap q)).length + 1 ≤
          m.registry.length := by omega
    calc (insertKey (m.registry.filter fun q => !evictable now (m.heap q))
            jid).length
        ≤ (m.registry.filter fun q => !evictable now (m.heap q)).length + 1 :=
          insertKey_length_le _ _
      _ ≤ m.registry.length := hlt
      _ = m.maxJobs := hlen

/-- Witness for C7 at a concrete manager exactly at capacity with one
evictable job. -/
theorem C7_witness :
    (mgrC7w.registry.length ≥ mgrC7w.maxJobs ∧
     mgrC7w.registry.length = mgrC7w.maxJobs ∧
     (∃ q ∈ mgrC7w.registry, evictable 4000 (mgrC7w.heap q) = true)) ∧
    (mgrC7w.create_job 3 "custom_voice" "req" 4000).1.registry.length ≤
      mgrC7w.maxJobs :=
  ⟨⟨by decide, by decide, by decide⟩,
   (C7_eviction_before_insertion mgrC7w 3 "custom_voice" "req" 4000
      (by decide)).2.2 (by decide) (by decide)⟩

theorem bodyEvent_not_terminal (o : LoopObs) :
    (bodyEvent o).isTerminalEvent = false := by
  cases h : o.arrival <;> simp [bodyEvent, h, SseEvent.isTerminalEvent]

theorem streamLoop_nonterminal_append (pre rest : List LoopObs)
    (hpre : ∀ x ∈ pre, x.status = .pending ∨ x.status = .processing) :
    streamLoop (pre ++ rest) = pre.map bodyEvent ++ streamLoop rest := by
  induction pre with
  | nil => simp
  | cons o pre ih =>
      have ho := hpre o (by simp)
      simp [streamLoop, ho, ih fun x hx => hpre x (by simp [hx])]

theorem streamLoop_terminal_head (o : LoopObs) (rest : List LoopObs)
    (ho : o.status.isTerminal = true) :
    ∃ e, terminalEvent o.status o.result o.error = some e ∧
      e.isTerminalEvent = true ∧ streamLoop (o :: rest) = [e] := by
  cases hst : o.status <;>
    simp_all [JobStatus.isTerminal, streamLoop, terminalEvent,
      SseEvent.isTerminalEvent]

/-- Claim C8: subscribing to a nonexistent job yields exactly one error
event and closes; subscribing to an existing job first emits the current
progress snapshot, then one progress update or heartbeat per
non-terminal loop check, and at the first terminal check exactly one
terminal event matching the terminal status (completed / error /
cancelled / killed, built from the job's result and error), after which
the stream is closed (later observations are ignored).  A subscriber
attaching when the job is already terminal is the `pre = []` case:
it receives the snapshot and the terminal event immediately. -/
theorem C8_stream_terminal_event (j : Job) (pre : List LoopObs)
    (o : LoopObs) (rest obs2 : List LoopObs)
    (hpre : ∀ x ∈ pre, x.status = .pending ∨ x.status = .processing)
    (ho : o.status.isTerminal = true) :
    stream_progress none obs2 = [.errorEv (some "Job no encontrado")] ∧
    (∃ e, terminalEvent o.status o.result o.error = some e ∧
      e.isTerminalEvent = true ∧
      stream_progress (some j) (pre ++ o :: rest) =
        .progressEv j.progress :: (pre.map bodyEvent ++ [e])) ∧
    (stream_progress (some j) (pre ++ o :: rest)).countP
      (fun e => e.isTerminalEvent) = 1 := by
  obtain ⟨e, he1, he2, he3⟩ := streamLoop_terminal_head o rest ho
  have heq : stream_progress (some j) (pre ++ o :: rest) =
      .progressEv j.progress :: (pre.map bodyEvent ++ [e]) := by
    simp [stream_progress, streamLoop_nonterminal_append pre (o :: rest) hpre,
      he3]
  refine ⟨rfl, ⟨e, he1, he2, heq⟩, ?_⟩
  rw [heq]
  have hz : List.countP ((fun e => e.isTerminalEvent) ∘ bodyEvent) pre = 0 :=
    List.countP_eq_zero.2 fun x _ => by simp [bodyEvent_not_terminal]
  simp only [List.countP_cons, List.countP_append, List.countP_map, hz,
    List.countP_nil, he2]
  simp [SseEvent.isTerminalEvent]

/-- Witness for C8: a subscriber attaching to a job that is already
completed receives the snapshot and then the completed event. -/
theorem C8_witness :
    ((∀ x ∈ ([] : List LoopObs),
        x.status = .pending ∨ x.status = .processing) ∧
      obsC8.status.isTerminal = true) ∧
    stream_progress none [] = [.errorEv (some "Job no encontrado")] ∧
    (stream_progress (some (sampleJob 1 .completed)) [obsC8]).countP
      (fun e => e.isTerminalEvent) = 1 :=
  ⟨⟨fun x hx => absurd hx (List.not_mem_nil x), by decide⟩,
   (C8_stream_terminal_event (sampleJob 1 .completed) [] obsC8 [] []
      (fun x hx => absurd hx (List.not_mem_nil x)) (by decide)).1,
   (C8_stream_terminal_event (sampleJob 1 .completed) [] obsC8 [] []
      (fun x hx => absurd hx (List.not_mem_nil x)) (by decide)).2.2⟩

/-- Claim C9: when the work-function raises an ordinary
(non-cancellation) exception, the worker records `failed` on the job
with the error message retained in its error field, frees its slot, and
the loop continues: the queue is untouched and the next queued job can
be dequeued and enters `processing`. -/
theorem C9_exception_fails_job_loop_continues (m : Mgr) (a : Nat)
    (msg : String) (now : Nat)
    (hin : m.inflight = some a) :
    ((m.finishStep (.raisedErr msg) now).heap a).status = .failed ∧
    ((m.finishStep (.raisedErr msg) now).heap a).error = some msg ∧
    (m.finishStep (.raisedErr msg) now).inflight = none ∧
    (m.finishStep (.raisedErr msg) now).queue = m.queue ∧
    (∀ b rest now2, m.queue = b :: rest →
      ((m.finishStep (.raisedErr msg) now).heap b).is_cancelled = false →
      ((m.finishStep (.raisedErr msg) now).dequeueStep now2).inflight =
        some b ∧
      (((m.finishStep (.raisedErr msg) now).dequeueStep now2).heap b).status =
        .processing) := by
  refine ⟨by simp [Mgr.finishStep, hin, Job.update_progress, setHeap_self],
    by simp [Mgr.finishStep, hin, Job.update_progress, setHeap_self],
    by simp [Mgr.finishStep, hin],
    by simp [Mgr.finishStep, hin], ?_⟩
  intro b rest now2 hq hb
  simp only [Mgr.finishStep, hin] at hb
  constructor
  · simp only [Mgr.finishStep, hin, Mgr.dequeueStep, hq, hb]
    simp [hb]
  · simp only [Mgr.finishStep, hin, Mgr.dequeueStep, hq, hb]
    simp [hb, setHeap_self, Job.update_progress]

/-- Witness for C9: job 1 fails with a retained message and job 2 still
gets dequeued and processed. -/
theorem C9_witness :
    mgrC9.inflight = some 1 ∧
    ((mgrC9.finishStep (.raisedErr "boom") 6).heap 1).status = .failed ∧
    ((mgrC9.finishStep (.raisedErr "boom") 6).heap 1).error = some "boom" ∧
    (((mgrC9.finishStep (.raisedErr "boom") 6).dequeueStep 7).heap 2).status =
      .processing :=
  ⟨rfl,
   (C9_exception_fails_job_loop_continues mgrC9 1 "boom" 6 rfl).1,
   (C9_exception_fails_job_loop_continues mgrC9 1 "boom" 6 rfl).2.1,
   ((C9_exception_fails_job_loop_continues mgrC9 1 "boom" 6 rfl).2.2.2.2
      2 [] 7 rfl (by decide)).2⟩

/-- Claim C10: deleting a `processing` job removes only the registry
mapping — delete returns true and get/cancel/kill subsequently report
not-found — while the in-flight execution is untouched: heap, queue and
worker slot are unchanged, and when the worker later finishes it writes
the terminal status and the result onto the now-unregistered job object,
which remains invisible to `get_job`. -/
theorem C10_delete_processing_only_registry (m : Mgr) (jid : Nat)
    (w : WaitOutcome) (r : String) (now now2 : Nat)
    (hreg : jid ∈ m.registry)
    (hnodup : m.registry.Nodup)
    (hst : (m.heap jid).status = .processing)
    (hflag : (m.heap jid).cancelledFlag = false)
    (hin : m.inflight = some jid) :
    (m.delete_job jid).2 = true ∧
    (m.delete_job jid).1.get_job jid = none ∧
    ((m.delete_job jid).1.cancel_job jid now).1 = (m.delete_job jid).1 ∧
    ((m.delete_job jid).1.cancel_job jid now).2 = false ∧
    ((m.delete_job jid).1.kill_job jid w now).1 = (m.delete_job jid).1 ∧
    ((m.delete_job jid).1.kill_job jid w now).2.success = false ∧
    ((m.delete_job jid).1.kill_job jid w now).2.error =
      some ("Job no encontrado: " ++ toString jid) ∧
    (m.delete_job jid).1.heap = m.heap ∧
    (m.delete_job jid).1.queue = m.queue ∧
    (m.delete_job jid).1.inflight = m.inflight ∧
    (((m.delete_job jid).1.finishStep (.completed r) now2).heap jid).status =
      .completed ∧
    (((m.delete_job jid).1.finishStep (.completed r) now2).heap jid).result =
      some r ∧
    ((m.delete_job jid).1.finishStep (.completed r) now2).get_job jid =
      none := by
  have hdel : (m.delete_job jid).1 =
      { m with registry := m.registry.erase jid } ∧ (m.delete_job jid).2 = true := by
    constructor <;> simp [Mgr.delete_job, hreg]
  have hne : jid ∉ m.registry.erase jid := by
    simp [hnodup.mem_erase_iff]
  have hget : (m.delete_job jid).1.get_job jid = none := by
    rw [hdel.1]; simp [Mgr.get_job, hne]
  refine ⟨hdel.2, hget, ?_, ?_, ?_, ?_, ?_, ?_, ?_, ?_, ?_, ?_, ?_⟩
  · simp [Mgr.cancel_job, hget]
  · simp [Mgr.cancel_job, hget]
  · simp [Mgr.kill_job, hget]
  · simp [Mgr.kill_job, hget]
  · simp [Mgr.kill_job, hget]
  · rw [hdel.1]
  · rw [hdel.1]
  · rw [hdel.1]
  · rw [hdel.1]
    simp [Mgr.finishStep, hin, Job.is_cancelled, hst, hflag, setHeap_self,
      Job.update_progress]
  · rw [hdel.1]
    simp [Mgr.finishStep, hin, Job.is_cancelled, hst, hflag, setHeap_self,
      Job.update_progress]
  · rw [hdel.1]
    simp [Mgr.finishStep, hin, Mgr.get_job, hne]

/-- Witness for C10 at a concrete in-flight processing job. -/
theorem C10_witness :
    ((1 : Nat) ∈ mgrC10.registry ∧ mgrC10.registry.Nodup ∧
      (mgrC10.heap 1).status = .processing ∧
      (mgrC10.heap 1).cancelledFlag = false ∧ mgrC10.inflight = some 1) ∧
    (mgrC10.delete_job 1).2 = true ∧
    (mgrC10.delete_job 1).1.get_job 1 = none ∧
    (((mgrC10.delete_job 1).1.finishStep (.completed "out") 9).heap 1).status =
      .completed :=
  ⟨⟨by decide, by decide, by decide, by decide, rfl⟩,
   (C10_delete_processing_only_registry mgrC10 1 .noTask "out" 8 9
      (by decide) (by decide) (by decide) (by decide) rfl).1,
   (C10_delete_processing_only_registry mgrC10 1 .noTask "out" 8 9
      (by decide) (by decide) (by decide) (by decide) rfl).2.1,
   (C10_delete_processing_only_registry mgrC10 1 .noTask "out" 8 9
      (by decide) (by decide) (by decide) (by decide) rfl).2.2.2.2.2.2.2.2.2.2.1⟩

theorem createJobRoute_heap_other (m : Mgr) (q : Nat) (t p : String)
    (now x : Nat) (hx : x ≠ q) :
    (createJobRoute m q t p now).1.heap x = m.heap x := by
  by_cases hk : get_processor_ok t <;>
    simp [createJobRoute, hk, create_heap_other m q t p now x hx]

theorem cancel_heap_other (m : Mgr) (q now x : Nat) (hx : x ≠ q) :
    ((m.cancel_job q now).1).heap x = m.heap x := by
  cases hg : m.get_job q with
  | none => simp [Mgr.cancel_job, hg]
  | some j =>
      cases hst : j.status <;>
        simp [Mgr.cancel_job, hg, hst, Job.request_cancellation,
          setHeap_other _ _ _ _ hx]

theorem kill_heap_other (m : Mgr) (q : Nat) (w : WaitOutcome) (now x : Nat)
    (hx : x ≠ q) : ((m.kill_job q w now).1).heap x = m.heap x := by
  cases hg : m.get_job q with
  | none => simp [Mgr.kill_job, hg]
  | some j =>
      cases hst : j.status <;>
        simp [Mgr.kill_job, hg, hst, Job.request_cancellation,
          setHeap_other _ _ _ _ hx]

theorem delete_heap (m : Mgr) (q : Nat) :
    ((m.delete_job q).1).heap = m.heap := by
  unfold Mgr.delete_job
  split <;> rfl

theorem cancel_flag_sticky (m : Mgr) (q now jid : Nat)
    (hflag : (m.heap jid).cancelledFlag = true) :
    (((m.cancel_job q now).1).heap jid).cancelledFlag = true := by
  by_cases hqj : jid = q
  · subst hqj
    cases hg : m.get_job jid with
    | none => simpa [Mgr.cancel_job, hg] using hflag
    | some j =>
        cases hst : j.status <;>
          simp [Mgr.cancel_job, hg, hst, Job.request_cancellation,
            setHeap_self, hflag]
  · rw [cancel_heap_other m q now jid hqj]
    exact hflag

theorem kill_flag_sticky (m : Mgr) (q : Nat) (w : WaitOutcome) (now jid : Nat)
    (hflag : (m.heap jid).cancelledFlag = true) :
    (((m.kill_job q w now).1).heap jid).cancelledFlag = true := by
  by_cases hqj : jid = q
  · subst hqj
    cases hg : m.get_job jid with
    | none => simpa [Mgr.kill_job, hg] using hflag
    | some j =>
        cases hst : j.status <;>
          simp [Mgr.kill_job, hg, hst, Job.request_cancellation,
            setHeap_self, hflag]
  · rw [kill_heap_other m q w now jid hqj]
    exact hflag

theorem dequeue_flag_sticky (m : Mgr) (now jid : Nat)
    (hflag : (m.heap jid).cancelledFlag = true) :
    ((m.dequeueStep now).heap jid).cancelledFlag = true := by
  rcases hq : m.queue with _ | ⟨q, rest⟩ <;>
    rcases hin : m.inflight with _ | q'
  all_goals simp only [Mgr.dequeueStep, hq, hin]
  · exact hflag
  · exact hflag
  · by_cases hc : (m.heap q).is_cancelled
    · simp only [hc, if_true]
      by_cases hqj : jid = q
      · subst hqj
        simp [setHeap_self, Job.update_progress, hflag]
      · simpa [setHeap_other _ _ _ _ hqj] using hflag
    · simp only [hc]
      by_cases hqj : jid = q
      · subst hqj
        simp [setHeap_self, Job.update_progress, hflag]
      · simp only [Bool.false_eq_true, if_false]
        simpa [setHeap_other _ _ _ _ hqj] using hflag
  · exact hflag

theorem finish_flag_sticky (m : Mgr) (out : FinishOutcome) (now jid : Nat)
    (hflag : (m.heap jid).cancelledFlag = true) :
    ((m.finishStep out now).heap jid).cancelledFlag = true := by
  rcases hin : m.inflight with _ | q
  · simpa [Mgr.finishStep, hin] using hflag
  · simp only [Mgr.finishStep, hin]
    by_cases hqj : jid = q
    · subst hqj
      by_cases hc : (m.heap jid).is_cancelled <;>
        cases out <;> simp [setHeap_self, Job.update_progress, hflag, hc]
    · simpa [setHeap_other _ _ _ _ hqj] using hflag

theorem flag_sticky_step (m : Mgr) (s : SysStep) (now jid : Nat)
    (hflag : (m.heap jid).cancelledFlag = true)
    (hns : ∀ t p, s ≠ .createRoute jid t p) :
    ((m.stepRun s now).heap jid).cancelledFlag = true := by
  cases s with
  | createRoute q t p =>
      have hq : jid ≠ q := fun h => hns t p (by rw [h])
      rw [Mgr.stepRun, createJobRoute_heap_other m q t p now jid hq]
      exact hflag
  | cancel q => exact cancel_flag_sticky m q now jid hflag
  | kill q w => exact kill_flag_sticky m q w now jid hflag
  | delete q => simpa [Mgr.stepRun, delete_heap] using hflag
  | dequeue => exact dequeue_flag_sticky m now jid hflag
  | finish out => exact finish_flag_sticky m out now jid hflag

theorem started_not_in_stepTrace (m : Mgr) (s : SysStep) (jid : Nat)
    (hflag : (m.heap jid).cancelledFlag = true) :
    TraceEv.started jid ∉ stepTrace m s := by
  cases s with
  | createRoute q t p =>
      by_cases hk : get_processor_ok t <;> simp [stepTrace, hk]
  | dequeue =>
      rcases hq : m.queue with _ | ⟨q, rest⟩ <;>
        rcases hin : m.inflight with _ | q'
      all_goals simp only [stepTrace, hq, hin]
      · simp
      · simp
      · by_cases hc : (m.heap q).is_cancelled
        · simp [hc]
        · simp only [hc, Bool.false_eq_true, if_false, Bool.not_false]
          intro hmem
          have hqj : jid = q := by simpa using hmem
          subst hqj
          simp [Job.is_cancelled, hflag] at hc
      · simp
  | cancel q => simp [stepTrace]
  | kill q w => simp [stepTrace]
  | delete q => simp [stepTrace]
  | finish out => simp [stepTrace]

theorem flagged_never_started (steps : List (SysStep × Nat)) :
    ∀ m jid, (m.heap jid).cancelledFlag = true →
    (∀ t p now2, (SysStep.createRoute jid t p, now2) ∉ steps) →
    jid ∉ procOrder (runTrace m steps).2 := by
  induction steps with
  | nil =>
      intro m jid _ _
      simp [runTrace, procOrder]
  | cons sn rest ih =>
      intro m jid hflag hns
      obtain ⟨s, now⟩ := sn
      have hns1 : ∀ t p, s ≠ .createRoute jid t p := by
        intro t p h
        exact hns t p now (by rw [h]; exact List.mem_cons_self _ _)
      have hns2 : ∀ t p now2, (SysStep.createRoute jid t p, now2) ∉ rest :=
        fun t p now2 h => hns t p now2 (List.mem_cons_of_mem _ h)
      rw [runTrace]
      simp only [procOrder, List.filterMap_append, List.mem_append]
      rintro (h | h)
      · obtain ⟨e, he, hme⟩ := List.mem_filterMap.1 h
        have : e = TraceEv.started jid := by
          cases e <;> simp_all
        rw [this] at he
        exact started_not_in_stepTrace m s jid hflag he
      · exact ih (m.stepRun s now) jid
          (flag_sticky_step m s now jid hflag hns1) hns2 h

/-- Claim C6: cancelling a `pending` job immediately marks it
`cancelled` with the cancel flag set and `updated_at` refreshed and
returns success; the queue entry remains, but along any subsequent run
of the system that does not reuse the job id for a new submission, the
job never enters `processing` — its work-function is never invoked —
even though the (job, work-function) pair may still be dequeued. -/
theorem C6_cancel_pending_never_runs (m : Mgr) (jid now : Nat)
    (steps : List (SysStep × Nat))
    (hreg : jid ∈ m.registry)
    (hst : (m.heap jid).status = .pending)
    (hns : ∀ t p now2, (SysStep.createRoute jid t p, now2) ∉ steps) :
    (m.cancel_job jid now).2 = true ∧
    (((m.cancel_job jid now).1).heap jid).status = .cancelled ∧
    (((m.cancel_job jid now).1).heap jid).cancelledFlag = true ∧
    (((m.cancel_job jid now).1).heap jid).updatedAt = now ∧
    ((m.cancel_job jid now).1).queue = m.queue ∧
    jid ∉ procOrder (runTrace (m.cancel_job jid now).1 steps).2 := by
  have hcancel : (m.cancel_job jid now).2 = true ∧
      (((m.cancel_job jid now).1).heap jid).status = .cancelled ∧
      (((m.cancel_job jid now).1).heap jid).cancelledFlag = true ∧
      (((m.cancel_job jid now).1).heap jid).updatedAt = now ∧
      ((m.cancel_job jid now).1).queue = m.queue := by
    simp [Mgr.cancel_job, Mgr.get_job, hreg, hst, Job.request_cancellation,
      setHeap_self]
  exact ⟨hcancel.1, hcancel.2.1, hcancel.2.2.1, hcancel.2.2.2.1,
    hcancel.2.2.2.2,
    flagged_never_started steps (m.cancel_job jid now).1 jid
      hcancel.2.2.1 hns⟩

/-- Witness for C6: cancel the queued pending job 1, then run a dequeue;
the job is never started. -/
theorem C6_witness :
    ((1 : Nat) ∈ mgrC6.registry ∧ (mgrC6.heap 1).status = .pending) ∧
    (mgrC6.cancel_job 1 5).2 = true ∧
    ((mgrC6.cancel_job 1 5).1.heap 1).status = .cancelled ∧
    (1 : Nat) ∉ procOrder
      (runTrace (mgrC6.cancel_job 1 5).1 [(.dequeue, 6)]).2 :=
  ⟨⟨by decide, by decide⟩,
   (C6_cancel_pending_never_runs mgrC6 1 5 [(.dequeue, 6)] (by decide)
      (by decide) (fun t p now2 h => by simp at h)).1,
   (C6_cancel_pending_never_runs mgrC6 1 5 [(.dequeue, 6)] (by decide)
      (by decide) (fun t p now2 h => by simp at h)).2.1,
   (C6_cancel_pending_never_runs mgrC6 1 5 [(.dequeue, 6)] (by decide)
      (by decide) (fun t p now2 h => by simp at h)).2.2.2.2.2⟩

theorem get_job_some (m : Mgr) (jid : Nat) (j : Job)
    (h : m.get_job jid = some j) : j = m.heap jid := by
  unfold Mgr.get_job at h
  by_cases hr : m.registry.contains jid
  · rw [if_pos hr] at h
    exact (Option.some.inj h).symm
  · rw [if_neg hr] at h
    exact absurd h (by simp)

theorem cancel_terminal_noop (m : Mgr) (jid now : Nat)
    (hterm : (m.heap jid).status.isTerminal = true) :
    (m.cancel_job jid now).1 = m := by
  cases hg : m.get_job jid with
  | none => simp [Mgr.cancel_job, hg]
  | some j =>
      have hj := get_job_some m jid j hg
      subst hj
      cases hst : (m.heap jid).status <;>
        simp_all [Mgr.cancel_job, JobStatus.isTerminal]

theorem dequeue_heap_other (m : Mgr) (now x q : Nat) (rest : List Nat)
    (hq : m.queue = q :: rest) (hin : m.inflight = none) (hx : x ≠ q) :
    (m.dequeueStep now).heap x = m.heap x := by
  simp only [Mgr.dequeueStep, hq, hin]
  by_cases hc : (m.heap q).is_cancelled <;>
    simp [hc, setHeap_other _ _ _ _ hx]

/-- Claim C1 counterexample: on `mgrC1` job 2 is in the terminal state
`cancelled`, yet the kill step changes its status to `killed`: a system
step does leave a terminal state. -/
theorem C1_counterexample :
    (mgrC1.heap 2).status.isTerminal = true ∧
    (mgrC1.heap 2).status = .cancelled ∧
    ((mgrC1.stepRun (.kill 2 .finished) 5).heap 2).status = .killed := by
  decide

/-- Claim C1 amended: once a job's status is terminal, the only system
steps that change it are: a kill on a `cancelled` job, which upgrades it
to `killed`; a worker dequeue of a job that is already terminal in the
queue (necessarily cancelled or killed while queued, flag set), which
re-marks it `cancelled`; and a worker finish on a job already forced to
`killed` while its task was still running, which records `cancelled` on
the cooperative-cancellation signal or `failed` on an ordinary
exception.  In particular `completed` and `failed` are never left, and
submissions (with fresh ids), soft cancels and deletes never change any
terminal status. -/
theorem C1_terminal_transitions (m : Mgr) (s : SysStep) (jid now : Nat)
    (hterm : (m.heap jid).status.isTerminal = true)
    (hqueue : ∀ q ∈ m.queue, (m.heap q).status.isTerminal = true →
      (((m.heap q).status = .cancelled ∨ (m.heap q).status = .killed) ∧
        (m.heap q).cancelledFlag = true))
    (hinflight : ∀ q, m.inflight = some q →
      (m.heap q).status.isTerminal = true →
      ((m.heap q).status = .killed ∧ (m.heap q).cancelledFlag = true))
    (hcreate : ∀ q t p, s = .createRoute q t p → q ≠ jid) :
    ((m.stepRun s now).heap jid).status = (m.heap jid).status ∨
    ((m.heap jid).status = .cancelled ∧
      ((m.stepRun s now).heap jid).status = .killed ∧
      ∃ w, s = .kill jid w) ∨
    ((m.heap jid).status = .killed ∧
      ((m.stepRun s now).heap jid).status = .cancelled ∧
      (s = .dequeue ∨ ∃ msg, s = .finish (.cancelSignal msg))) ∨
    ((m.heap jid).status = .killed ∧
      ((m.stepRun s now).heap jid).status = .failed ∧
      ∃ msg, s = .finish (.raisedErr msg)) := by
  cases s with
  | createRoute q t p =>
      left
      rw [Mgr.stepRun, createJobRoute_heap_other m q t p now jid
        (Ne.symm (hcreate q t p rfl))]
  | cancel q =>
      left
      by_cases hqj : jid = q
      · subst hqj
        rw [Mgr.stepRun, cancel_terminal_noop m jid now hterm]
      · rw [Mgr.stepRun, cancel_heap_other m q now jid hqj]
  | delete q =>
      left
      rw [Mgr.stepRun, delete_heap]
  | kill q w =>
      by_cases hqj : jid = q
      · subst hqj
        cases hg : m.get_job jid with
        | none => left; simp [Mgr.stepRun, Mgr.kill_job, hg]
        | some j =>
            have hj := get_job_some m jid j hg
            subst hj
            cases hst : (m.heap jid).status with
            | pending => rw [hst] at hterm; simp [JobStatus.isTerminal] at hterm
            | processing =>
                rw [hst] at hterm; simp [JobStatus.isTerminal] at hterm
            | completed => left; simp [Mgr.stepRun, Mgr.kill_job, hg, hst]
            | failed => left; simp [Mgr.stepRun, Mgr.kill_job, hg, hst]
            | killed => left; simp [Mgr.stepRun, Mgr.kill_job, hg, hst]
            | cancelled =>
                right; left
                refine ⟨rfl, ?_, w, rfl⟩
                simp [Mgr.stepRun, Mgr.kill_job, hg, hst,
                  Job.request_cancellation, setHeap_self]
      · left
        rw [Mgr.stepRun, kill_heap_other m q w now jid hqj]
  | dequeue =>
      rcases hq : m.queue with _ | ⟨q, rest⟩
      · left
        simp [Mgr.stepRun, Mgr.dequeueStep, hq]
      · rcases hin2 : m.inflight with _ | q'
        · by_cases hqj : jid = q
          · subst hqj
            have hqq := hqueue jid (by rw [hq]; exact List.mem_cons_self _ _)
              hterm
            have hc : (m.heap jid).is_cancelled = true := by
              simp [Job.is_cancelled, hqq.2]
            rcases hqq.1 with hcs | hks
            · left
              simp [Mgr.stepRun, Mgr.dequeueStep, hq, hin2, hc, setHeap_self,
                Job.update_progress, hcs]
            · right; right; left
              refine ⟨hks, ?_, Or.inl rfl⟩
              simp [Mgr.stepRun, Mgr.dequeueStep, hq, hin2, hc, setHeap_self,
                Job.update_progress]
          · left
            rw [Mgr.stepRun, dequeue_heap_other m now jid q rest hq hin2 hqj]
        · left
          simp [Mgr.stepRun, Mgr.dequeueStep, hq, hin2]
  | finish out =>
      rcases hin2 : m.inflight with _ | q
      · left
        simp [Mgr.stepRun, Mgr.finishStep, hin2]
      · by_cases hqj : jid = q
        · subst hqj
          have hk := hinflight jid hin2 hterm
          have hc : (m.heap jid).is_cancelled = true := by
            simp [Job.is_cancelled, hk.2]
          cases out with
          | completed r =>
              left
              simp [Mgr.stepRun, Mgr.finishStep, hin2, hc, setHeap_self,
                Job.update_progress, hk.1]
          | externalCancel =>
              left
              simp [Mgr.stepRun, Mgr.finishStep, hin2, setHeap_self,
                Job.update_progress, hk.1]
          | cancelSignal msg =>
              right; right; left
              refine ⟨hk.1, ?_, Or.inr ⟨msg, rfl⟩⟩
              simp [Mgr.stepRun, Mgr.finishStep, hin2, setHeap_self,
                Job.update_progress]
          | raisedErr msg =>
              right; right; right
              refine ⟨hk.1, ?_, msg, rfl⟩
              simp [Mgr.stepRun, Mgr.finishStep, hin2, setHeap_self,
                Job.update_progress]
        · left
          rw [Mgr.stepRun]
          simp only [Mgr.finishStep, hin2]
          simp [setHeap_other _ _ _ _ hqj]

/-- Witness for C1: cancelling a completed job leaves its status
unchanged. -/
theorem C1_witness :
    (mgrC1w.heap 3).status.isTerminal = true ∧
    (((mgrC1w.stepRun (.cancel 3) 6).heap 3).status =
        (mgrC1w.heap 3).status ∨
      ((mgrC1w.heap 3).status = .cancelled ∧
        ((mgrC1w.stepRun (.cancel 3) 6).heap 3).status = .killed ∧
        ∃ w, SysStep.cancel 3 = SysStep.kill 3 w) ∨
      ((mgrC1w.heap 3).status = .killed ∧
        ((mgrC1w.stepRun (.cancel 3) 6).heap 3).status = .cancelled ∧
        (SysStep.cancel 3 = SysStep.dequeue ∨
          ∃ msg, SysStep.cancel 3 = SysStep.finish (.cancelSignal msg))) ∨
      ((mgrC1w.heap 3).status = .killed ∧
        ((mgrC1w.stepRun (.cancel 3) 6).heap 3).status = .failed ∧
        ∃ msg, SysStep.cancel 3 = SysStep.finish (.raisedErr msg))) :=
  ⟨by decide,
   C1_terminal_transitions mgrC1w (.cancel 3) 3 6 (by decide)
     (fun q hq _ => absurd hq (by simp [mgrC1w]))
     (fun q h _ => by simp [mgrC1w] at h)
     (fun q t p h => by simp at h)⟩

theorem create_inflight (m : Mgr) (jid : Nat) (t p : String) (now : Nat) :
    ((m.create_job jid t p now).1).inflight = m.inflight := by
  by_cases hc : m.registry.length ≥ m.maxJobs <;>
    simp [Mgr.create_job, hc, Mgr.cleanup_old_jobs]

theorem createJobRoute_queue (m : Mgr) (q : Nat) (t p : String) (now : Nat) :
    (createJobRoute m q t p now).1.queue =
      if get_processor_ok t then m.queue ++ [q] else m.queue := by
  have hid : (m.create_job q t p now).2.id = q := rfl
  by_cases hk : get_processor_ok t <;>
    simp [createJobRoute, hk, create_queue, hid]

theorem createJobRoute_inflight (m : Mgr) (q : Nat) (t p : String)
    (now : Nat) : (createJobRoute m q t p now).1.inflight = m.inflight := by
  by_cases hk : get_processor_ok t <;>
    simp [createJobRoute, hk, create_inflight]

theorem createJobRoute_heap_self (m : Mgr) (q : Nat) (t p : String)
    (now : Nat) :
    (createJobRoute m q t p now).1.heap q = newJob q t p now := by
  by_cases hk : get_processor_ok t <;>
    by_cases hc : m.registry.length ≥ m.maxJobs <;>
      simp [createJobRoute, hk, Mgr.create_job, hc, Mgr.cleanup_old_jobs,
        setHeap_self]

theorem delete_queue (m : Mgr) (q : Nat) :
    ((m.delete_job q).1).queue = m.queue := by
  unfold Mgr.delete_job
  split <;> rfl

theorem delete_inflight (m : Mgr) (q : Nat) :
    ((m.delete_job q).1).inflight = m.inflight := by
  unfold Mgr.delete_job
  split <;> rfl

theorem newJob_not_cancelled (jid : Nat) (t p : String) (now : Nat) :
    (newJob jid t p now).is_cancelled = false := by
  simp [newJob, Job.is_cancelled]

theorem create_job_snd (m : Mgr) (jid : Nat) (t p : String) (now : Nat) :
    (m.create_job jid t p now).2 = newJob jid t p now := rfl

theorem nodup_append_singleton (l : List Nat) (a : Nat) (h : l.Nodup)
    (ha : a ∉ l) : (l ++ [a]).Nodup := by
  rw [List.nodup_append]
  refine ⟨h, List.nodup_singleton a, ?_⟩
  intro x hx hx1
  have hxa : x = a := by simpa using hx1
  exact ha (hxa ▸ hx)

theorem runTrace_fifo_aux (steps : List (SysStep × Nat)) :
    ∀ m : Mgr,
    (∀ jid ∈ m.queue, (m.heap jid).is_cancelled = false) →
    m.queue.Nodup →
    (∀ q, m.inflight = some q → q ∉ m.queue) →
    freshRun m steps = true →
    noCancelKill steps = true →
    deqOrder (runTrace m steps).2 ++ (runTrace m steps).1.queue =
      m.queue ++ enqOrder (runTrace m steps).2 ∧
    procOrder (runTrace m steps).2 = deqOrder (runTrace m steps).2 := by
  induction steps with
  | nil =>
      intro m _ _ _ _ _
      simp [runTrace, deqOrder, enqOrder, procOrder]
  | cons sn rest ih =>
      rintro m hq hnd hin hfresh hnck
      obtain ⟨s, now⟩ := sn
      obtain ⟨hfs, hfrest⟩ : stepFresh m s = true ∧
          freshRun (m.stepRun s now) rest = true := by
        simpa [freshRun, Bool.and_eq_true] using hfresh
      obtain ⟨hnck1, hnckrest⟩ : stepNotCancelKill s = true ∧
          noCancelKill rest = true := by
        simpa [noCancelKill, Bool.and_eq_true] using hnck
      cases s with
      | cancel q => simp [stepNotCancelKill] at hnck1
      | kill q w => simp [stepNotCancelKill] at hnck1
      | createRoute q t p =>
          obtain ⟨⟨hnr, hnq⟩, hni⟩ : (q ∉ m.registry ∧ q ∉ m.queue) ∧
              m.inflight ≠ some q := by
            simpa [stepFresh, Bool.and_eq_true] using hfs
          have hq' : ∀ jid ∈ (m.stepRun (.createRoute q t p) now).queue,
              (((m.stepRun (.createRoute q t p) now)).heap jid).is_cancelled
                = false := by
            intro jid hj
            rw [Mgr.stepRun, createJobRoute_queue] at hj
            by_cases hjq : jid = q
            · subst hjq
              rw [Mgr.stepRun, createJobRoute_heap_self]
              exact newJob_not_cancelled _ _ _ _
            · have hjm : jid ∈ m.queue := by
                by_cases hk : get_processor_ok t
                · rw [if_pos hk] at hj
                  rcases List.mem_append.1 hj with hj | hj
                  · exact hj
                  · exact absurd (by simpa using hj) hjq
                · rwa [if_neg hk] at hj
              rw [Mgr.stepRun, createJobRoute_heap_other m q t p now jid hjq]
              exact hq jid hjm
          have hnd' : (m.stepRun (.createRoute q t p) now).queue.Nodup := by
            rw [Mgr.stepRun, createJobRoute_queue]
            by_cases hk : get_processor_ok t
            · rw [if_pos hk]
              exact nodup_append_singleton _ _ hnd hnq
            · rwa [if_neg hk]
          have hin' : ∀ q', (m.stepRun (.createRoute q t p) now).inflight =
              some q' → q' ∉ (m.stepRun (.createRoute q t p) now).queue := by
            intro q' hq'' hmem
            rw [Mgr.stepRun, createJobRoute_inflight] at hq''
            rw [Mgr.stepRun, createJobRoute_queue] at hmem
            by_cases hk : get_processor_ok t
            · rw [if_pos hk] at hmem
              rcases List.mem_append.1 hmem with hmem | hmem
              · exact hin q' hq'' hmem
              · have : q' = q := by simpa using hmem
                subst this
                exact hni hq''
            · rw [if_neg hk] at hmem
              exact hin q' hq'' hmem
          obtain ⟨ih1, ih2⟩ := ih (m.stepRun (.createRoute q t p) now)
            hq' hnd' hin' hfrest hnckrest
          by_cases hk : get_processor_ok t
          · have hqueue' : (createJobRoute m q t p now).1.queue =
                m.queue ++ [q] := by
              rw [createJobRoute_queue, if_pos hk]
            have htr : stepTrace m (.createRoute q t p) = [.enq q] := by
              simp [stepTrace, hk]
            rw [runTrace, Mgr.stepRun, htr]
            rw [Mgr.stepRun] at ih1 ih2
            simp only [deqOrder, enqOrder, procOrder, List.singleton_append,
              List.filterMap_cons] at ih1 ih2 ⊢
            rw [hqueue'] at ih1
            constructor
            · rw [ih1, List.append_assoc]
              rfl
            · exact ih2
          · have htr : stepTrace m (.createRoute q t p) = [] := by
              simp [stepTrace, hk]
            have hqueue' : (createJobRoute m q t p now).1.queue =
                m.queue := by
              rw [createJobRoute_queue, if_neg hk]
            rw [runTrace, Mgr.stepRun, htr]
            rw [Mgr.stepRun] at ih1 ih2
            simp only [List.nil_append]
            rw [hqueue'] at ih1
            exact ⟨ih1, ih2⟩
      | delete q =>
          have hq' : ∀ jid ∈ ((m.delete_job q).1).queue,
              (((m.delete_job q).1).heap jid).is_cancelled = false := by
            intro jid hj
            rw [delete_queue] at hj
            rw [delete_heap]
            exact hq jid hj
          have hnd' : ((m.delete_job q).1).queue.Nodup := by
            rw [delete_queue]; exact hnd
          have hin' : ∀ q', ((m.delete_job q).1).inflight = some q' →
              q' ∉ ((m.delete_job q).1).queue := by
            intro q' h1 h2
            rw [delete_inflight] at h1
            rw [delete_queue] at h2
            exact hin q' h1 h2
          obtain ⟨ih1, ih2⟩ := ih ((m.delete_job q).1) hq' hnd' hin'
            hfrest hnckrest
          rw [runTrace, Mgr.stepRun]
          have htr : stepTrace m (.delete q) = [] := rfl
          rw [htr]
          simp only [List.nil_append]
          rw [delete_queue] at ih1
          exact ⟨ih1, ih2⟩
      | dequeue =>
          rcases hqq : m.queue with _ | ⟨q, rest'⟩
          · have hm : m.dequeueStep now = m := by
              simp [Mgr.dequeueStep, hqq]
            obtain ⟨ih1, ih2⟩ := ih (m.stepRun .dequeue now)
              (by rw [Mgr.stepRun, hm]; exact hq)
              (by rw [Mgr.stepRun, hm]; exact hnd)
              (by rw [Mgr.stepRun, hm]; exact hin) hfrest hnckrest
            have htr : stepTrace m .dequeue = [] := by
              simp [stepTrace, hqq]
            rw [runTrace, htr, Mgr.stepRun, hm]
            simp only [List.nil_append]
            rw [Mgr.stepRun, hm, hqq] at ih1
            simp only [List.nil_append] at ih1
            rw [Mgr.stepRun, hm] at ih2
            exact ⟨ih1, ih2⟩
          · rcases hinq : m.inflight with _ | q''
            · have hcq : (m.heap q).is_cancelled = false :=
                hq q (by rw [hqq]; exact List.mem_cons_self _ _)
              have hmq : (m.dequeueStep now).queue = rest' := by
                simp [Mgr.dequeueStep, hqq, hinq, hcq]
              have hmi : (m.dequeueStep now).inflight = some q := by
                simp [Mgr.dequeueStep, hqq, hinq, hcq]
              have htr : stepTrace m .dequeue = [.started q] := by
                simp [stepTrace, hqq, hinq, hcq]
              have hndtail : rest'.Nodup ∧ q ∉ rest' := by
                rw [hqq] at hnd
                exact ⟨(List.nodup_cons.1 hnd).2, (List.nodup_cons.1 hnd).1⟩
              have hq' : ∀ jid ∈ (m.stepRun .dequeue now).queue,
                  ((m.stepRun .dequeue now).heap jid).is_cancelled = false := by
                intro jid hj
                rw [Mgr.stepRun, hmq] at hj
                have hjq : jid ≠ q := fun h => hndtail.2 (h ▸ hj)
                rw [Mgr.stepRun, dequeue_heap_other m now jid q rest' hqq
                  hinq hjq]
                exact hq jid (by rw [hqq]; exact List.mem_cons_of_mem _ hj)
              have hnd' : (m.stepRun .dequeue now).queue.Nodup := by
                rw [Mgr.stepRun, hmq]
                exact hndtail.1
              have hin' : ∀ q', (m.stepRun .dequeue now).inflight = some q' →
                  q' ∉ (m.stepRun .dequeue now).queue := by
                intro q' h1
                rw [Mgr.stepRun, hmi] at h1
                have hqeq : q = q' := Option.some.inj h1
                rw [Mgr.stepRun, hmq]
                exact hqeq ▸ hndtail.2
              obtain ⟨ih1, ih2⟩ := ih (m.stepRun .dequeue now) hq' hnd' hin'
                hfrest hnckrest
              have hq2 : (m.stepRun .dequeue now).queue = rest' := by
                rw [Mgr.stepRun, hmq]
              rw [runTrace, htr]
              rw [hq2] at ih1
              simp only [deqOrder, enqOrder, procOrder, List.singleton_append,
                List.filterMap_cons] at ih1 ih2 ⊢
              constructor
              · simp only [List.cons_append]
                rw [ih1]
              · rw [ih2]

            · have hm : m.dequeueStep now = m := by
                simp [Mgr.dequeueStep, hqq, hinq]
              obtain ⟨ih1, ih2⟩ := ih (m.stepRun .dequeue now)
                (by rw [Mgr.stepRun, hm]; exact hq)
                (by rw [Mgr.stepRun, hm]; exact hnd)
                (by rw [Mgr.stepRun, hm]; exact hin) hfrest hnckrest
              have htr : stepTrace m .dequeue = [] := by
                simp [stepTrace, hqq, hinq]
              rw [runTrace, htr, Mgr.stepRun, hm]
              simp only [List.nil_append]
              rw [Mgr.stepRun, hm, hqq] at ih1
              rw [Mgr.stepRun, hm] at ih2
              exact ⟨ih1, ih2⟩
      | finish out =>
          rcases hinq : m.inflight with _ | q''
          · have hm : m.finishStep out now = m := by
              simp [Mgr.finishStep, hinq]
            obtain ⟨ih1, ih2⟩ := ih (m.stepRun (.finish out) now)
              (by rw [Mgr.stepRun, hm]; exact hq)
              (by rw [Mgr.stepRun, hm]; exact hnd)
              (by rw [Mgr.stepRun, hm]; exact hin) hfrest hnckrest
            have htr : stepTrace m (.finish out) = [] := rfl
            rw [runTrace, htr, Mgr.stepRun, hm]
            simp only [List.nil_append]
            rw [Mgr.stepRun, hm] at ih1 ih2
            exact ⟨ih1, ih2⟩
          · have hqueue2 : (m.finishStep out now).queue = m.queue := by
              simp [Mgr.finishStep, hinq]
            have hinf2 : (m.finishStep out now).inflight = none := by
              simp [Mgr.finishStep, hinq]
            have hq' : ∀ jid ∈ (m.stepRun (.finish out) now).queue,
                ((m.stepRun (.finish out) now).heap jid).is_cancelled
                  = false := by
              intro jid hj
              rw [Mgr.stepRun, hqueue2] at hj
              have hjq : jid ≠ q'' := fun h => hin q'' hinq (h ▸ hj)
              rw [Mgr.stepRun]
              simp only [Mgr.finishStep, hinq]
              rw [setHeap_other _ _ _ _ hjq]
              exact hq jid hj
            have hnd' : (m.stepRun (.finish out) now).queue.Nodup := by
              rw [Mgr.stepRun, hqueue2]; exact hnd
            have hin' : ∀ q', (m.stepRun (.finish out) now).inflight =
                some q' → q' ∉ (m.stepRun (.finish out) now).queue := by
              intro q' h1
              rw [Mgr.stepRun, hinf2] at h1
              cases h1
            obtain ⟨ih1, ih2⟩ := ih (m.stepRun (.finish out) now) hq' hnd'
              hin' hfrest hnckrest
            have htr : stepTrace m (.finish out) = [] := rfl
            rw [runTrace, htr]
            simp only [List.nil_append]
            have hq3 : (m.stepRun (.finish out) now).queue = m.queue := by
              rw [Mgr.stepRun, hqueue2]
            rw [hq3] at ih1
            exact ⟨ih1, ih2⟩

/-- Claim C2: with the single worker (`max_concurrent = 1`), jobs enter
`processing` in exactly submission order: along any run whose created
ids are fresh and that contains no cancel/kill interference, the ids
that entered `processing`, followed by the ids still queued, equal the
initial queue followed by the enqueue order — so the processing order is
the FIFO prefix of the submission order. -/
theorem C2_fifo_single_worker (m : Mgr) (steps : List (SysStep × Nat))
    (hq : ∀ jid ∈ m.queue, (m.heap jid).is_cancelled = false)
    (hnd : m.queue.Nodup)
    (hin : ∀ q, m.inflight = some q → q ∉ m.queue)
    (hfresh : freshRun m steps = true)
    (hnck : noCancelKill steps = true) :
    procOrder (runTrace m steps).2 ++ (runTrace m steps).1.queue =
      m.queue ++ enqOrder (runTrace m steps).2 := by
  obtain ⟨h1, h2⟩ := runTrace_fifo_aux steps m hq hnd hin hfresh hnck
  rw [h2]
  exact h1

/-- Witness for C2: two submissions followed by a drain; the processing
order [10, 11] equals the submission order. -/
theorem C2_witness :
    (freshRun mgrC2 stepsC2 = true ∧ noCancelKill stepsC2 = true ∧
      mgrC2.queue = [] ∧ mgrC2.inflight = none) ∧
    procOrder (runTrace mgrC2 stepsC2).2 ++ (runTrace mgrC2 stepsC2).1.queue =
      mgrC2.queue ++ enqOrder (runTrace mgrC2 stepsC2).2 ∧
    procOrder (runTrace mgrC2 stepsC2).2 = [10, 11] :=
  ⟨⟨by decide, by decide, by decide, rfl⟩,
   C2_fifo_single_worker mgrC2 stepsC2
     (fun jid h => absurd h (by simp [mgrC2]))
     (by simp [mgrC2])
     (fun q h => by simp [mgrC2] at h)
     (by decide) (by decide),
   by decide⟩

end JobSys

